import Mathlib

/-!
Verification of the stacking core of `layout_GUI` (files `stacker.py`,
`gen_utils.py`).  The Maya scene is modelled as a map from object names
to axis-aligned bounding boxes; `cmds.move(..., relative=True)` becomes
a translation of the named object's box, and
`cmds.xform(query=True, boundingBox=True)` becomes a lookup in the map.
Coordinates are rationals so that all the arithmetic of the source
(averages of box corners, differences of centers) is exact.
-/

namespace Stacker

/-- An axis-aligned bounding box `[xmin, ymin, zmin, xmax, ymax, zmax]`,
the list returned by `cmds.xform(obj, query=True, boundingBox=True)`. -/
structure BBox where
  xmin : ℚ
  ymin : ℚ
  zmin : ℚ
  xmax : ℚ
  ymax : ℚ
  zmax : ℚ
deriving DecidableEq, Repr

/-- A point `[x, y, z]` as the lists built by `get_center_point`. -/
structure Point3 where
  x : ℚ
  y : ℚ
  z : ℚ
deriving DecidableEq, Repr

/-- Translating a box by `(dx, dy, dz)`: the effect of
`cmds.move(dx, dy, dz, obj, relative=True)` on `obj`'s bounding box. -/
def BBox.translate (b : BBox) (dx dy dz : ℚ) : BBox :=
  ⟨b.xmin + dx, b.ymin + dy, b.zmin + dz, b.xmax + dx, b.ymax + dy, b.zmax + dz⟩

/-- The scene: every object name has a current world-space bounding box. -/
def Scene (α : Type) : Type := α → BBox

/-- `cmds.move(dx, dy, dz, o, relative=True)`: the named object's box is
translated, every other object is untouched. -/
def Scene.move {α : Type} [DecidableEq α] (s : Scene α) (dx dy dz : ℚ) (o : α) :
    Scene α :=
  fun x => if x = o then (s o).translate dx dy dz else s x

/-- `get_center_point(object_name, top_flag, bottom_flag)` from
`stacker.py`: queries the bounding box, builds the center
`[(xmin+xmax)/2, (ymin+ymax)/2, (zmin+zmax)/2]`, then overwrites the y
entry with `ymax` when `top_flag == 1 and bottom_flag == 0`, with `ymin`
when `top_flag == 0 and bottom_flag == 1`, and otherwise returns the
center unchanged.  The flags are Python ints (default 0). -/
def get_center_point {α : Type} (s : Scene α) (object_name : α)
    (top_flag : ℤ := 0) (bottom_flag : ℤ := 0) : Point3 :=
  let bound_coord := s object_name
  let center_coord : Point3 :=
    ⟨(bound_coord.xmin + bound_coord.xmax) / 2,
     (bound_coord.ymin + bound_coord.ymax) / 2,
     (bound_coord.zmin + bound_coord.zmax) / 2⟩
  if top_flag = 1 ∧ bottom_flag = 0 then
    { center_coord with y := bound_coord.ymax }
  else if top_flag = 0 ∧ bottom_flag = 1 then
    { center_coord with y := bound_coord.ymin }
  else
    center_coord

/-- `create_stack(object_name, bottom_center, new_point)` from
`stacker.py`: computes `dist = new_point - bottom_center` componentwise
and issues one relative move of the named object by `dist`. -/
def create_stack {α : Type} [DecidableEq α] (s : Scene α) (object_name : α)
    (bottom_center new_point : Point3) : Scene α :=
  let dist : Point3 :=
    ⟨new_point.x - bottom_center.x,
     new_point.y - bottom_center.y,
     new_point.z - bottom_center.z⟩
  s.move dist.x dist.y dist.z object_name

/-- `verify_args(arg_list)` from `stacker.py`: walks the list and
returns `None` at the first element that `is None`; if the walk finishes
(in particular on an empty list) it returns `True`.  A `none` result
models Python's `None`, `some true` models `True`. -/
def verify_args {α : Type} : List (Option α) → Option Bool
  | [] => some true
  | none :: _ => none
  | some _ :: rest => verify_args rest

/-- The `for i in range(len(arg_list) - 1)` loop of `stack_objs`: for
each adjacent pair take the top center of the lower object and the
bottom center of the upper one (both from the current scene) and move
the upper object with `create_stack`. -/
def stack_loop {α : Type} [DecidableEq α] (s : Scene α) : List α → Scene α
  | [] => s
  | [_] => s
  | a :: b :: rest =>
    let top_center := get_center_point s a 1 0
    let bottom_center := get_center_point s b 0 1
    let s' := create_stack s b bottom_center top_center
    stack_loop s' (b :: rest)

/-- `stack_objs(arg_list)` from `stacker.py`: elements may be `None`
(modelled by `Option α`).  If `verify_args` fails the function returns
`None` having moved nothing; otherwise it runs the pairwise stacking
loop and returns `True`.  The result is the final scene paired with the
Python return value. -/
def stack_objs {α : Type} [DecidableEq α] (s : Scene α)
    (arg_list : List (Option α)) : Scene α × Option Bool :=
  match verify_args arg_list with
  | none => (s, none)
  | some _ => (stack_loop s arg_list.reduceOption, some true)

/-- `offset_objs_in_x(obj_static, obj_move, offset_val)` from
`stacker.py`: first moves `obj_move` so that the two centers share
their x coordinate, then re-queries both bounding boxes and moves
`obj_move` further by `offset_val + (static.xmax - static.center.x)
+ (move.center.x - move.xmin)` along x. -/
def offset_objs_in_x {α : Type} [DecidableEq α] (s : Scene α)
    (obj_static obj_move : α) (offset_val : ℚ) : Scene α :=
  let static_center_prev := get_center_point s obj_static
  let move_center_prev := get_center_point s obj_move
  let s1 := s.move (static_center_prev.x - move_center_prev.x) 0 0 obj_move
  let static_bounds := s1 obj_static
  let static_center_new := get_center_point s1 obj_static
  let static_dist := static_bounds.xmax - static_center_new.x
  let move_bounds := s1 obj_move
  let move_center_new := get_center_point s1 obj_move
  let move_dist := move_center_new.x - move_bounds.xmin
  let offset_to := offset_val + static_dist + move_dist
  s1.move offset_to 0 0 obj_move

/-- The stack invariant of the spec: adjacent elements are vertically
contiguous — the top center of element `i` equals the bottom center of
element `i+1`. -/
def assembled {α : Type} (s : Scene α) (l : List α) : Prop :=
  l.Chain' fun a b => get_center_point s a 1 0 = get_center_point s b 0 1

instance {α : Type} (s : Scene α) (l : List α) : Decidable (assembled s l) :=
  inferInstanceAs (Decidable (List.Chain' _ l))

section Lemmas

variable {α : Type} [DecidableEq α]

theorem move_apply_self (s : Scene α) (dx dy dz : ℚ) (o : α) :
    s.move dx dy dz o o = (s o).translate dx dy dz := by
  simp [Scene.move]

theorem move_apply_ne (s : Scene α) (dx dy dz : ℚ) (o x : α) (h : x ≠ o) :
    s.move dx dy dz o x = s x := by
  simp [Scene.move, h]

theorem move_zero (s : Scene α) (o : α) : s.move 0 0 0 o = s := by
  funext x
  by_cases h : x = o
  · subst h; simp [Scene.move, BBox.translate]
  · simp [Scene.move, h]

omit [DecidableEq α] in
theorem gcp_center (s : Scene α) (o : α) :
    get_center_point s o 0 0 =
      ⟨((s o).xmin + (s o).xmax) / 2, ((s o).ymin + (s o).ymax) / 2,
       ((s o).zmin + (s o).zmax) / 2⟩ := by
  simp [get_center_point]

omit [DecidableEq α] in
theorem gcp_top (s : Scene α) (o : α) :
    get_center_point s o 1 0 =
      ⟨((s o).xmin + (s o).xmax) / 2, (s o).ymax,
       ((s o).zmin + (s o).zmax) / 2⟩ := by
  simp [get_center_point]

omit [DecidableEq α] in
theorem gcp_bottom (s : Scene α) (o : α) :
    get_center_point s o 0 1 =
      ⟨((s o).xmin + (s o).xmax) / 2, (s o).ymin,
       ((s o).zmin + (s o).zmax) / 2⟩ := by
  simp [get_center_point]

omit [DecidableEq α] in
theorem get_center_point_congr {s s' : Scene α} {o : α} (h : s o = s' o)
    (tf bf : ℤ) : get_center_point s o tf bf = get_center_point s' o tf bf := by
  simp [get_center_point, h]

theorem create_stack_apply_self (s : Scene α) (b : α) (bc np : Point3) :
    create_stack s b bc np b =
      (s b).translate (np.x - bc.x) (np.y - bc.y) (np.z - bc.z) := by
  simp [create_stack, Scene.move]

theorem create_stack_apply_ne (s : Scene α) (b : α) (bc np : Point3) (x : α)
    (h : x ≠ b) : create_stack s b bc np x = s x := by
  simp [create_stack, Scene.move, h]

/-- Aligning an object's bottom center onto a target point does exactly
that: in the new scene the object's bottom center is the target. -/
theorem create_stack_aligns (s : Scene α) (b : α) (np : Point3) :
    get_center_point (create_stack s b (get_center_point s b 0 1) np) b 0 1
      = np := by
  have hb := create_stack_apply_self s b (get_center_point s b 0 1) np
  rw [gcp_bottom, hb, gcp_bottom s b]
  cases np with
  | mk x y z => simp [BBox.translate]; constructor <;> ring

/-- Objects that are not in the tail of the list are never moved by the
stacking loop. -/
theorem stack_loop_apply_of_not_mem_tail (o : α) :
    ∀ (l : List α) (s : Scene α), o ∉ l.tail → stack_loop s l o = s o
  | [], _, _ => rfl
  | [_], _, _ => rfl
  | a :: b :: rest, s, h => by
    have hb : o ∉ rest := fun hm => h (List.mem_cons_of_mem _ hm)
    have hob : o ≠ b := fun e => h (e ▸ List.mem_cons_self _ _)
    calc stack_loop s (a :: b :: rest) o
        = stack_loop
            (create_stack s b (get_center_point s b 0 1)
              (get_center_point s a 1 0)) (b :: rest) o := rfl
      _ = create_stack s b (get_center_point s b 0 1)
            (get_center_point s a 1 0) o :=
          stack_loop_apply_of_not_mem_tail o (b :: rest) _ hb
      _ = s o := create_stack_apply_ne _ _ _ _ _ hob

omit [DecidableEq α] in
theorem verify_args_map_some (l : List α) :
    verify_args (l.map some) = some true := by
  induction l with
  | nil => rfl
  | cons a rest ih => simpa [verify_args] using ih

omit [DecidableEq α] in
theorem reduceOption_map_some (l : List α) :
    (l.map some).reduceOption = l := by
  induction l with
  | nil => rfl
  | cons a rest ih => simpa [List.reduceOption_cons_of_some] using ih

/-- The stacking loop establishes the contiguity invariant when the
list has no repeated object. -/
theorem stack_loop_assembles :
    ∀ (l : List α) (s : Scene α), l.Nodup → assembled (stack_loop s l) l
  | [], _, _ => List.chain'_nil
  | [_], _, _ => List.chain'_singleton _
  | a :: b :: rest, s, hnd => by
    have hab : a ≠ b := by
      intro e
      exact (List.nodup_cons.mp hnd).1 (e ▸ List.mem_cons_self _ _)
    have hatl : a ∉ rest := fun hm =>
      (List.nodup_cons.mp hnd).1 (List.mem_cons_of_mem _ hm)
    have hbtl : b ∉ rest :=
      (List.nodup_cons.mp (List.nodup_cons.mp hnd).2).1
    set s' := create_stack s b (get_center_point s b 0 1)
      (get_center_point s a 1 0) with hs'
    have tail_nd : (b :: rest).Nodup := (List.nodup_cons.mp hnd).2
    have ih := stack_loop_assembles (b :: rest) s' tail_nd
    have hfix_a : stack_loop s' (b :: rest) a = s' a :=
      stack_loop_apply_of_not_mem_tail a (b :: rest) s' hatl
    have hfix_b : stack_loop s' (b :: rest) b = s' b :=
      stack_loop_apply_of_not_mem_tail b (b :: rest) s' hbtl
    have hpair :
        get_center_point (stack_loop s' (b :: rest)) a 1 0 =
          get_center_point (stack_loop s' (b :: rest)) b 0 1 := by
      rw [get_center_point_congr hfix_a, get_center_point_congr hfix_b]
      have ha' : s' a = s a := create_stack_apply_ne _ _ _ _ _ hab
      rw [get_center_point_congr ha']
      exact (create_stack_aligns s b (get_center_point s a 1 0)).symm
    have : stack_loop s (a :: b :: rest) = stack_loop s' (b :: rest) := rfl
    rw [assembled, this]
    exact List.chain'_cons'.mpr
      ⟨fun y hy => by
        cases List.head?_eq_head (l := b :: rest) (by simp) ▸ hy
        exact hpair, ih⟩

/-- If the invariant already holds, every delta computed by the loop is
zero and the scene is unchanged. -/
theorem stack_loop_fixed :
    ∀ (l : List α) (s : Scene α), assembled s l → stack_loop s l = s
  | [], _, _ => rfl
  | [_], _, _ => rfl
  | a :: b :: rest, s, h => by
    have hpair : get_center_point s a 1 0 = get_center_point s b 0 1 :=
      (List.chain'_cons.mp h).1
    have htail : assembled s (b :: rest) := (List.chain'_cons.mp h).2
    have hzero :
        create_stack s b (get_center_point s b 0 1)
          (get_center_point s a 1 0) = s := by
      funext x
      by_cases hx : x = b
      · subst hx
        rw [create_stack_apply_self, ← hpair]
        simp [BBox.translate]
      · exact create_stack_apply_ne _ _ _ _ _ hx
    calc stack_loop s (a :: b :: rest)
        = stack_loop
            (create_stack s b (get_center_point s b 0 1)
              (get_center_point s a 1 0)) (b :: rest) := rfl
      _ = stack_loop s (b :: rest) := by rw [hzero]
      _ = s := stack_loop_fixed (b :: rest) s htail

end Lemmas

end Stacker

namespace GenUtils

/-!
Embedding of `gen_utils.py`.  An XML element has a tag, an attribute
dictionary and a list of child elements (`getchildren()`).  Python
dictionaries keep insertion order, so both attribute maps and the
`Autovivification` dictionaries are modelled as association lists where
assignment updates the first occurrence in place and otherwise appends.
-/

/-- A parsed XML element. -/
structure XmlElem where
  tag : String
  attrib : List (String × String)
  children : List XmlElem

/-- Ordered-dictionary assignment `d[k] = v`: update in place when the
key exists, append otherwise (Python `dict` semantics). -/
def dictSet {β : Type} (d : List (String × β)) (k : String) (v : β) :
    List (String × β) :=
  match d with
  | [] => [(k, v)]
  | (k', v') :: rest =>
    if k' = k then (k', v) :: rest else (k', v') :: dictSet rest k v

/-- The three-level result of `read_stack_xml`:
stack-group name → object name → component name → raw string value. -/
def Contents : Type := List (String × List (String × List (String × String)))

/-- The autovivified assignment `contents[t1][t2][t3] = v`: missing
intermediate dictionaries spring into existence empty (that is what the
`Autovivification.__getitem__` override does), then the innermost key is
assigned. -/
def aviv_set3 (c : Contents) (t1 t2 t3 : String) (v : String) : Contents :=
  let d1 := (c.lookup t1).getD []
  let d2 := (d1.lookup t2).getD []
  dictSet c t1 (dictSet d1 t2 (dictSet d2 t3 v))

/-- Innermost loop of `read_stack_xml`: `for comp in point`, reading
`comp.attrib['value']` (a missing attribute raises `KeyError`, modelled
by `.error`) and assigning `contents[stack.tag][i.tag][comp.tag]`. -/
def read_comps (t1 t2 : String) : List XmlElem → Contents → Except Unit Contents
  | [], c => .ok c
  | comp :: rest, c =>
    match comp.attrib.lookup "value" with
    | none => .error ()
    | some value => read_comps t1 t2 rest (aviv_set3 c t1 t2 comp.tag value)

/-- Middle loop of `read_stack_xml`: `for i in vector`. -/
def read_entries (t1 : String) : List XmlElem → Contents → Except Unit Contents
  | [], c => .ok c
  | i :: rest, c =>
    match read_comps t1 i.tag i.children c with
    | .error e => .error e
    | .ok c1 => read_entries t1 rest c1

/-- Outer loop of `read_stack_xml`: `for stack in groups`. -/
def read_groups : List XmlElem → Contents → Except Unit Contents
  | [], c => .ok c
  | stack :: rest, c =>
    match read_entries stack.tag stack.children c with
    | .error e => .error e
    | .ok c1 => read_groups rest c1

/-- The file system as seen by `read_stack_xml`: the paths that name an
existing file, each with the root element its XML parses to. -/
def FileSys : Type := List (String × XmlElem)

/-- `read_stack_xml(file_path)` from `gen_utils.py`: returns `None`
(`.ok none`) when `os.path.isfile` is false, otherwise walks the three
levels root → stack groups → object entries → components and fills
the autovivified dictionary; a component without a `value` attribute
raises (`.error`). -/
def read_stack_xml (fs : FileSys) (file_path : String) :
    Except Unit (Option Contents) :=
  match fs.lookup file_path with
  | none => .ok none
  | some root =>
    match read_groups root.children [] with
    | .error e => .error e
    | .ok contents => .ok (some contents)

/-- Looking up one component value in the three-level mapping. -/
def contents_get (c : Contents) (k1 k2 k3 : String) : Option String :=
  ((((c.lookup k1).getD []).lookup k2).getD []).lookup k3

theorem lookup_dictSet_self {β : Type} (d : List (String × β)) (k : String)
    (v : β) : (dictSet d k v).lookup k = some v := by
  induction d with
  | nil => simp [dictSet]
  | cons p rest ih =>
    obtain ⟨k', v'⟩ := p
    by_cases h : k' = k
    · subst h; simp [dictSet]
    · have hbeq : (k == k') = false := beq_eq_false_iff_ne.mpr (Ne.symm h)
      simp [dictSet, h, List.lookup, hbeq, ih]

theorem lookup_dictSet_ne {β : Type} (d : List (String × β)) (k k' : String)
    (v : β) (h : k' ≠ k) : (dictSet d k v).lookup k' = d.lookup k' := by
  induction d with
  | nil =>
    have hbeq : (k' == k) = false := beq_eq_false_iff_ne.mpr h
    simp [dictSet, List.lookup, hbeq]
  | cons p rest ih =>
    obtain ⟨k'', v''⟩ := p
    by_cases h2 : k'' = k
    · subst h2
      have hbeq : (k' == k'') = false := beq_eq_false_iff_ne.mpr h
      simp [dictSet, List.lookup, hbeq]
    · by_cases h3 : k' = k''
      · subst h3; simp [dictSet, h2, List.lookup]
      · have hbeq : (k' == k'') = false := beq_eq_false_iff_ne.mpr h3
        simp [dictSet, h2, List.lookup, hbeq, ih]

theorem contents_get_aviv_self (c : Contents) (t1 t2 t3 : String)
    (v : String) : contents_get (aviv_set3 c t1 t2 t3 v) t1 t2 t3 = some v := by
  unfold contents_get aviv_set3
  rw [lookup_dictSet_self]
  simp only [Option.getD_some]
  rw [lookup_dictSet_self]
  simp only [Option.getD_some]
  exact lookup_dictSet_self _ _ _

theorem contents_get_aviv_ne (c : Contents) (t1 t2 t3 v k1 k2 k3 : String)
    (h : k1 ≠ t1 ∨ k2 ≠ t2 ∨ k3 ≠ t3) :
    contents_get (aviv_set3 c t1 t2 t3 v) k1 k2 k3 = contents_get c k1 k2 k3 := by
  unfold contents_get aviv_set3
  by_cases h1 : k1 = t1
  · subst h1
    rw [lookup_dictSet_self]
    simp only [Option.getD_some]
    by_cases h2 : k2 = t2
    · subst h2
      rw [lookup_dictSet_self]
      simp only [Option.getD_some]
      have h3 : k3 ≠ t3 := by tauto
      exact lookup_dictSet_ne _ _ _ _ h3
    · rw [lookup_dictSet_ne _ _ _ _ h2]
  · rw [lookup_dictSet_ne _ _ _ _ h1]

/-- The innermost loop succeeds when every component has a `value`
attribute; it touches only the `(t1, t2)` slot, fills the slots named by
the component tags, and leaves everything else alone. -/
theorem read_comps_ok (t1 t2 : String) :
    ∀ (comps : List XmlElem) (c : Contents),
      (∀ comp ∈ comps, (comp.attrib.lookup "value").isSome) →
      ∃ c', read_comps t1 t2 comps c = .ok c' ∧
        (∀ k1 k2 k3, (k1 ≠ t1 ∨ k2 ≠ t2) →
          contents_get c' k1 k2 k3 = contents_get c k1 k2 k3) ∧
        (∀ k3, k3 ∉ comps.map XmlElem.tag →
          contents_get c' t1 t2 k3 = contents_get c t1 t2 k3) ∧
        ((comps.map XmlElem.tag).Nodup →
          ∀ comp ∈ comps,
            contents_get c' t1 t2 comp.tag = comp.attrib.lookup "value")
  | [], c, _ =>
    ⟨c, rfl, fun _ _ _ _ => rfl, fun _ _ => rfl, fun _ comp h => absurd h
      (List.not_mem_nil comp)⟩
  | comp :: rest, c, hval => by
    obtain ⟨v, hv⟩ := Option.isSome_iff_exists.mp
      (hval comp (List.mem_cons_self _ _))
    obtain ⟨c', hok, hA, hB, hC⟩ := read_comps_ok t1 t2 rest
      (aviv_set3 c t1 t2 comp.tag v)
      (fun x hx => hval x (List.mem_cons_of_mem _ hx))
    refine ⟨c', ?_, ?_, ?_, ?_⟩
    · simp only [read_comps, hv]
      exact hok
    · intro k1 k2 k3 hk
      rw [hA k1 k2 k3 hk, contents_get_aviv_ne]
      tauto
    · intro k3 hk3
      have h1 : k3 ∉ rest.map XmlElem.tag := fun hm =>
        hk3 (List.mem_cons_of_mem _ hm)
      have h2 : k3 ≠ comp.tag := fun e => hk3 (e ▸ List.mem_cons_self _ _)
      rw [hB k3 h1, contents_get_aviv_ne]
      tauto
    · intro hnd x hx
      rcases List.mem_cons.mp hx with he | hm
      · subst he
        have hhd : x.tag ∉ rest.map XmlElem.tag :=
          (List.nodup_cons.mp (by simpa using hnd)).1
        rw [hB x.tag hhd, contents_get_aviv_self, hv]
      · exact hC (List.nodup_cons.mp (by simpa using hnd)).2 x hm

/-- The middle loop succeeds when every component of every entry has a
`value` attribute; it touches only top-level key `t1`, fills one
second-level slot per entry, and leaves everything else alone. -/
theorem read_entries_ok (t1 : String) :
    ∀ (entries : List XmlElem) (c : Contents),
      (∀ i ∈ entries, ∀ comp ∈ i.children,
        (comp.attrib.lookup "value").isSome) →
      ∃ c', read_entries t1 entries c = .ok c' ∧
        (∀ k1 k2 k3, k1 ≠ t1 →
          contents_get c' k1 k2 k3 = contents_get c k1 k2 k3) ∧
        (∀ k2 k3, k2 ∉ entries.map XmlElem.tag →
          contents_get c' t1 k2 k3 = contents_get c t1 k2 k3) ∧
        ((entries.map XmlElem.tag).Nodup →
          ∀ i ∈ entries, (i.children.map XmlElem.tag).Nodup →
            ∀ comp ∈ i.children,
              contents_get c' t1 i.tag comp.tag = comp.attrib.lookup "value")
  | [], c, _ =>
    ⟨c, rfl, fun _ _ _ _ => rfl, fun _ _ _ => rfl, fun _ i h => absurd h
      (List.not_mem_nil i)⟩
  | i :: rest, c, hval => by
    obtain ⟨c1, hok1, hA1, hB1, hC1⟩ := read_comps_ok t1 i.tag i.children c
      (hval i (List.mem_cons_self _ _))
    obtain ⟨c', hok, hA, hB, hC⟩ := read_entries_ok t1 rest c1
      (fun x hx => hval x (List.mem_cons_of_mem _ hx))
    refine ⟨c', ?_, ?_, ?_, ?_⟩
    · simp only [read_entries, hok1]
      exact hok
    · intro k1 k2 k3 hk
      rw [hA k1 k2 k3 hk, hA1 k1 k2 k3 (Or.inl hk)]
    · intro k2 k3 hk2
      have h1 : k2 ∉ rest.map XmlElem.tag := fun hm =>
        hk2 (List.mem_cons_of_mem _ hm)
      have h2 : k2 ≠ i.tag := fun e => hk2 (e ▸ List.mem_cons_self _ _)
      rw [hB k2 k3 h1, hA1 t1 k2 k3 (Or.inr h2)]
    · intro hnd x hx hxnd comp hcomp
      rcases List.mem_cons.mp hx with he | hm
      · subst he
        have hhd : x.tag ∉ rest.map XmlElem.tag :=
          (List.nodup_cons.mp (by simpa using hnd)).1
        rw [hB x.tag comp.tag hhd]
        exact hC1 hxnd comp hcomp
      · exact hC (List.nodup_cons.mp (by simpa using hnd)).2 x hm hxnd comp hcomp

/-- The outer loop succeeds when every component everywhere has a
`value` attribute; untouched top-level keys keep their values, and with
duplicate-free tags every slot holds the matching component's `value`
attribute. -/
theorem read_groups_ok :
    ∀ (groups : List XmlElem) (c : Contents),
      (∀ g ∈ groups, ∀ i ∈ g.children, ∀ comp ∈ i.children,
        (comp.attrib.lookup "value").isSome) →
      ∃ c', read_groups groups c = .ok c' ∧
        (∀ k1 k2 k3, k1 ∉ groups.map XmlElem.tag →
          contents_get c' k1 k2 k3 = contents_get c k1 k2 k3) ∧
        ((groups.map XmlElem.tag).Nodup →
          ∀ g ∈ groups, (g.children.map XmlElem.tag).Nodup →
            ∀ i ∈ g.children, (i.children.map XmlElem.tag).Nodup →
              ∀ comp ∈ i.children,
                contents_get c' g.tag i.tag comp.tag =
                  comp.attrib.lookup "value")
  | [], c, _ =>
    ⟨c, rfl, fun _ _ _ _ => rfl, fun _ g h => absurd h (List.not_mem_nil g)⟩
  | g :: rest, c, hval => by
    obtain ⟨c1, hok1, hA1, hB1, hC1⟩ := read_entries_ok g.tag g.children c
      (hval g (List.mem_cons_self _ _))
    obtain ⟨c', hok, hA, hC⟩ := read_groups_ok rest c1
      (fun x hx => hval x (List.mem_cons_of_mem _ hx))
    refine ⟨c', ?_, ?_, ?_⟩
    · simp only [read_groups, hok1]
      exact hok
    · intro k1 k2 k3 hk1
      have h1 : k1 ∉ rest.map XmlElem.tag := fun hm =>
        hk1 (List.mem_cons_of_mem _ hm)
      have h2 : k1 ≠ g.tag := fun e => hk1 (e ▸ List.mem_cons_self _ _)
      rw [hA k1 k2 k3 h1, hA1 k1 k2 k3 h2]
    · intro hnd x hx hxnd i hi hind comp hcomp
      rcases List.mem_cons.mp hx with he | hm
      · subst he
        have hhd : x.tag ∉ rest.map XmlElem.tag :=
          (List.nodup_cons.mp (by simpa using hnd)).1
        rw [hA x.tag i.tag comp.tag hhd]
        exact hC1 hxnd i hi hind comp hcomp
      · exact hC (List.nodup_cons.mp (by simpa using hnd)).2 x hm hxnd i hi
          hind comp hcomp

end GenUtils

open Stacker GenUtils

/-- Additional fact used for the frame condition of `offset_objs_in_x`:
two successive x-only moves of the same object are one x-only move. -/
theorem move_move_x {α : Type} [DecidableEq α] (s : Scene α) (d1 d2 : ℚ)
    (o : α) : (s.move d1 0 0 o).move d2 0 0 o = s.move (d1 + d2) 0 0 o := by
  funext x
  by_cases h : x = o
  · subst h
    simp only [Scene.move, if_pos rfl, BBox.translate]
    simp
    constructor <;> ring
  · simp [Scene.move, h]

/-- `verify_args` returns `None` exactly when the list has a `None`
element; an empty list passes. -/
theorem verify_args_eq_none_iff {α : Type} (l : List (Option α)) :
    verify_args l = none ↔ none ∈ l := by
  induction l with
  | nil => simp [verify_args]
  | cons a rest ih => cases a <;> simp [verify_args, ih]

def sceneC1 : Scene ℕ := fun _ => ⟨0, 0, 0, 1, 1, 1⟩

def sceneC1w : Scene ℕ := fun n =>
  if n = 0 then ⟨0, 0, 0, 2, 2, 2⟩ else ⟨0, 0, 0, 2, 1, 2⟩

def sceneC2 : Scene ℕ := fun n =>
  if n = 0 then ⟨0, 0, 0, 2, 2, 2⟩ else ⟨10, 0, 0, 12, 1, 1⟩

def sceneC3 : Scene ℕ := fun _ => ⟨0, 0, 0, 1, 1, 1⟩

def sceneC5 : Scene ℕ := fun _ => ⟨0, 0, 0, 2, 2, 2⟩

def sceneC6 : Scene ℕ := fun n =>
  if n = 0 then ⟨0, 0, 0, 2, 2, 2⟩ else ⟨0, 2, 0, 2, 3, 2⟩

def sceneC8 : Scene ℕ := fun n =>
  if n = 0 then ⟨0, 0, 0, 2, 2, 2⟩ else ⟨10, 0, 0, 12, 1, 1⟩

def sceneC9 : Scene ℕ := fun _ => ⟨0, 0, 0, 2, 4, 6⟩

/-- C1 (amended: the objects of the sequence must be pairwise distinct;
with a repeated reference a later alignment moves an object of an
earlier pair): `stack_objs` on a sequence of at least two distinct
objects leaves every adjacent pair vertically contiguous — the top
center of element `i` equals the bottom center of element `i+1`. -/
theorem claim_C1_stack_objs_assembles {α : Type} [DecidableEq α]
    (s : Scene α) (l : List α) (_hlen : 2 ≤ l.length) (hnd : l.Nodup) :
    assembled (stack_objs s (l.map some)).1 l := by
  have hv := verify_args_map_some (α := α) l
  have hr := reduceOption_map_some (α := α) l
  simp only [stack_objs, hv, hr]
  exact stack_loop_assembles l s hnd

/-- C1 witness: the spec's own example, A with box `[0,0,0,2,2,2]` and B
with box `[0,0,0,2,1,2]`, is contiguous after `stack_objs([A, B])`. -/
theorem claim_C1_witness :
    assembled (stack_objs sceneC1w ([0, 1].map some)).1 [0, 1] :=
  claim_C1_stack_objs_assembles sceneC1w [0, 1] (by decide) (by decide)

/-- C1 counterexample: the claim quantifies over every sequence, but
when the same object appears twice (`[A, A]`, unit box) the final scene
violates the contiguity invariant: the single move leaves A's top
center one unit above its bottom center. -/
theorem claim_C1_counterexample :
    ¬ assembled (stack_objs sceneC1 ([0, 0].map some)).1 [0, 0] := by
  simp [assembled, stack_objs, verify_args, stack_loop, create_stack,
    get_center_point, Scene.move, BBox.translate, sceneC1,
    List.reduceOption_cons_of_some, Point3.mk.injEq]

/-- C2: after `offset_objs_in_x(S, M, gap)` on distinct objects the x
gap between the bounding boxes is exactly `gap`: `bbox(M).xmin -
bbox(S).xmax = gap`, for `gap ≥ 0`. -/
theorem claim_C2_offset_gap {α : Type} [DecidableEq α] (s : Scene α)
    (obj_static obj_move : α) (hne : obj_static ≠ obj_move)
    (min_gap : ℚ) (_hgap : 0 ≤ min_gap) :
    (offset_objs_in_x s obj_static obj_move min_gap obj_move).xmin -
      (offset_objs_in_x s obj_static obj_move min_gap obj_static).xmax
      = min_gap := by
  simp [offset_objs_in_x, get_center_point, Scene.move, BBox.translate,
    hne, Ne.symm hne]
  ring

/-- C2 witness: boxes `[0,0,0,2,2,2]` and `[10,0,0,12,1,1]` separated
with `min_gap = 1/2` end up exactly `1/2` apart along x. -/
theorem claim_C2_witness :
    (offset_objs_in_x sceneC2 0 1 (1/2) 1).xmin -
      (offset_objs_in_x sceneC2 0 1 (1/2) 0).xmax = 1/2 :=
  claim_C2_offset_gap sceneC2 0 1 (by decide) (1/2) (by norm_num)

/-- C3 (amended: an empty sequence does not fail — `verify_args` walks
the list and returns `True` when the walk finishes, which it does
immediately on `[]`, so `stack_objs([])` returns `True` as a no-op):
`stack_objs` fails exactly when the sequence contains a missing/null
element, and on failure no object has been moved. -/
theorem claim_C3_stack_objs_failure {α : Type} [DecidableEq α]
    (s : Scene α) (arg_list : List (Option α)) :
    ((stack_objs s arg_list).2 = none ↔ none ∈ arg_list) ∧
    (none ∈ arg_list → (stack_objs s arg_list).1 = s) := by
  have hiff := verify_args_eq_none_iff arg_list
  cases h : verify_args arg_list with
  | none =>
    exact ⟨by simp [stack_objs, h, hiff.mp h], fun _ => by simp [stack_objs, h]⟩
  | some b =>
    have hnm : none ∉ arg_list := fun hm => by
      rw [hiff.mpr hm] at h
      exact Option.noConfusion h
    exact ⟨by simp [stack_objs, h, hnm], fun hm => absurd hm hnm⟩

/-- C3 witness: a list containing a null reference makes `stack_objs`
fail and leave the scene untouched. -/
theorem claim_C3_witness :
    (stack_objs sceneC3 [some 0, none]).1 = sceneC3 :=
  (claim_C3_stack_objs_failure sceneC3 [some 0, none]).2 (by decide)

/-- C3 counterexample: the claim says the empty sequence fails with
`InvalidArgument`, but `stack_objs([])` succeeds, returning `True`
without moving anything. -/
theorem claim_C3_counterexample :
    stack_objs sceneC3 ([] : List (Option ℕ)) = (sceneC3, some true) := rfl

/-- C4: `get_center_point` returns `x = (xmin+xmax)/2` and
`z = (zmin+zmax)/2` in every mode, with `y` the average in CENTER mode
(flags 0,0), `ymax` in TOP mode (flags 1,0) and `ymin` in BOTTOM mode
(flags 0,1). -/
theorem claim_C4_get_center_point_modes {α : Type} (s : Scene α) (o : α) :
    get_center_point s o 0 0 =
      ⟨((s o).xmin + (s o).xmax) / 2, ((s o).ymin + (s o).ymax) / 2,
       ((s o).zmin + (s o).zmax) / 2⟩ ∧
    get_center_point s o 1 0 =
      ⟨((s o).xmin + (s o).xmax) / 2, (s o).ymax,
       ((s o).zmin + (s o).zmax) / 2⟩ ∧
    get_center_point s o 0 1 =
      ⟨((s o).xmin + (s o).xmax) / 2, (s o).ymin,
       ((s o).zmin + (s o).zmax) / 2⟩ :=
  ⟨gcp_center s o, gcp_top s o, gcp_bottom s o⟩

/-- C5: `create_stack(object, from_point, to_point)` translates the
object's box by exactly `to_point - from_point` componentwise and leaves
every other object untouched. -/
theorem claim_C5_create_stack_translation {α : Type} [DecidableEq α]
    (s : Scene α) (object_name : α) (from_point to_point : Point3) :
    create_stack s object_name from_point to_point object_name =
      (s object_name).translate (to_point.x - from_point.x)
        (to_point.y - from_point.y) (to_point.z - from_point.z) ∧
    ∀ x, x ≠ object_name →
      create_stack s object_name from_point to_point x = s x :=
  ⟨create_stack_apply_self s object_name from_point to_point,
   fun x hx => create_stack_apply_ne s object_name from_point to_point x hx⟩

/-- C5 witness: moving object 0 leaves object 1 where it was. -/
theorem claim_C5_witness :
    create_stack sceneC5 0 ⟨0, 0, 0⟩ ⟨1, 2, 3⟩ 1 = sceneC5 1 :=
  (claim_C5_create_stack_translation sceneC5 0 ⟨0, 0, 0⟩ ⟨1, 2, 3⟩).2 1
    (by decide)

/-- C6: `stack_objs` is idempotent — on a sequence that already
satisfies the contiguity invariant every alignment delta is zero, no
object moves, and the call returns `True` with the scene unchanged. -/
theorem claim_C6_stack_objs_idempotent {α : Type} [DecidableEq α]
    (s : Scene α) (l : List α) (h : assembled s l) :
    stack_objs s (l.map some) = (s, some true) := by
  have hv := verify_args_map_some (α := α) l
  have hr := reduceOption_map_some (α := α) l
  simp only [stack_objs, hv, hr]
  rw [stack_loop_fixed l s h]

/-- C6 witness: boxes `[0,0,0,2,2,2]` and `[0,2,0,2,3,2]` are already
assembled, and `stack_objs` leaves the scene exactly as it is. -/
theorem claim_C6_witness :
    stack_objs sceneC6 ([0, 1].map some) = (sceneC6, some true) :=
  claim_C6_stack_objs_idempotent sceneC6 [0, 1]
    (by simp [assembled, get_center_point, sceneC6, Point3.mk.injEq])

/-- C8: `offset_objs_in_x` amounts to a single x-only relative move of
the moving object: some `dx` with `dy = dz = 0`, every object other
than the moving one (in particular a distinct static object) untouched,
and the moving object's y and z extents unchanged. -/
theorem claim_C8_offset_frame {α : Type} [DecidableEq α] (s : Scene α)
    (obj_static obj_move : α) (offset_val : ℚ) :
    (∃ dx, offset_objs_in_x s obj_static obj_move offset_val =
      s.move dx 0 0 obj_move) ∧
    (∀ o, o ≠ obj_move →
      offset_objs_in_x s obj_static obj_move offset_val o = s o) ∧
    ((offset_objs_in_x s obj_static obj_move offset_val obj_move).ymin
        = (s obj_move).ymin ∧
     (offset_objs_in_x s obj_static obj_move offset_val obj_move).ymax
        = (s obj_move).ymax ∧
     (offset_objs_in_x s obj_static obj_move offset_val obj_move).zmin
        = (s obj_move).zmin ∧
     (offset_objs_in_x s obj_static obj_move offset_val obj_move).zmax
        = (s obj_move).zmax) := by
  obtain ⟨d1, d2, hshape⟩ :
      ∃ d1 d2, offset_objs_in_x s obj_static obj_move offset_val =
        (s.move d1 0 0 obj_move).move d2 0 0 obj_move := ⟨_, _, rfl⟩
  refine ⟨⟨d1 + d2, by rw [hshape, move_move_x]⟩, ?_, ?_⟩
  · intro o ho
    rw [hshape]
    simp [Scene.move, ho]
  · rw [hshape]
    simp [Scene.move, BBox.translate]

/-- C8 witness: separating objects 0 and 1 leaves object 0 (the static
one) exactly where it was. -/
theorem claim_C8_witness : offset_objs_in_x sceneC8 0 1 5 0 = sceneC8 0 :=
  (claim_C8_offset_frame sceneC8 0 1 5).2.1 0 (by decide)

/-- C9: every flag combination other than exactly `(1, 0)` and `(0, 1)`
— both set, both clear, or any other integers — makes
`get_center_point` fall through to the full geometric center. -/
theorem claim_C9_flags_default {α : Type} (s : Scene α) (o : α)
    (top_flag bottom_flag : ℤ)
    (h1 : ¬(top_flag = 1 ∧ bottom_flag = 0))
    (h2 : ¬(top_flag = 0 ∧ bottom_flag = 1)) :
    get_center_point s o top_flag bottom_flag =
      ⟨((s o).xmin + (s o).xmax) / 2, ((s o).ymin + (s o).ymax) / 2,
       ((s o).zmin + (s o).zmax) / 2⟩ := by
  simp [get_center_point, h1, h2]

/-- C9 witness: both flags set on box `[0,0,0,2,4,6]` yields the full
center `(1, 2, 3)`. -/
theorem claim_C9_witness : get_center_point sceneC9 0 1 1 = ⟨1, 2, 3⟩ :=
  (claim_C9_flags_default sceneC9 0 1 1 (by decide) (by decide)).trans
    (by norm_num [sceneC9, Point3.mk.injEq])

/-- C10: when the path names no existing file, `read_stack_xml` returns
`None` without raising and without reading anything. -/
theorem claim_C10_read_missing_file (fs : FileSys) (file_path : String)
    (h : fs.lookup file_path = none) :
    read_stack_xml fs file_path = .ok none := by
  simp [read_stack_xml, h]

/-- C10 witness: an empty file system makes any read return `None`. -/
theorem claim_C10_witness :
    read_stack_xml ([] : FileSys) "missing.xml" = .ok none :=
  claim_C10_read_missing_file [] "missing.xml" rfl

/-- A component element `<tx value="01"/>` whose `value` attribute is
deliberately an unnormalized numeral. -/
def demoTx : XmlElem := ⟨"tx", [("value", "01")], []⟩

def demoTy : XmlElem := ⟨"ty", [("value", "2")], []⟩

def demoTz : XmlElem := ⟨"tz", [("value", "3")], []⟩

/-- An object entry that carries `tx`/`ty`/`tz` attributes of its own
(`tx="7"` and so on) besides its `<tx/>`, `<ty/>`, `<tz/>` children, to
separate the two possible sources of the stored values. -/
def demoEntry : XmlElem :=
  ⟨"obj1", [("tx", "7"), ("ty", "8"), ("tz", "9")],
    [demoTx, demoTy, demoTz]⟩

def demoRoot : XmlElem := ⟨"maya_stacks", [], [⟨"stack001", [], [demoEntry]⟩]⟩

def demoFS : FileSys := [("demo.xml", demoRoot)]

def demoContents : Contents :=
  [("stack001", [("obj1", [("tx", "01"), ("ty", "2"), ("tz", "3")])])]

/-- C7 (amended: the third-level keys are the tag names of the object
entry's child elements, and each stored value is the raw string of that
child's `value` attribute — attributes of the object entry itself are
ignored and no numeric parsing happens): for every document whose tag
names are duplicate-free at each level and whose components all carry a
`value` attribute, `read_stack_xml` builds the three-level mapping
stack-group tag → object tag → component tag → that component's `value`
string. -/
theorem claim_C7_read_builds_mapping (fs : FileSys) (file_path : String)
    (root : XmlElem) (hfs : fs.lookup file_path = some root)
    (hg : (root.children.map XmlElem.tag).Nodup)
    (he : ∀ g ∈ root.children, (g.children.map XmlElem.tag).Nodup)
    (hc : ∀ g ∈ root.children, ∀ e ∈ g.children,
      (e.children.map XmlElem.tag).Nodup)
    (hv : ∀ g ∈ root.children, ∀ e ∈ g.children, ∀ comp ∈ e.children,
      (comp.attrib.lookup "value").isSome) :
    ∃ c, read_stack_xml fs file_path = .ok (some c) ∧
      ∀ g ∈ root.children, ∀ e ∈ g.children, ∀ comp ∈ e.children,
        contents_get c g.tag e.tag comp.tag = comp.attrib.lookup "value" := by
  obtain ⟨c, hok, _, hC⟩ := read_groups_ok root.children [] hv
  refine ⟨c, ?_, ?_⟩
  · simp [read_stack_xml, hfs, hok]
  · intro g hgm e hem comp hcm
    exact hC hg g hgm (he g hgm) e hem (hc g hgm e hem) comp hcm

/-- C7 witness: the demo document reads back as the mapping whose
values are the `value` strings of the component children. -/
theorem claim_C7_witness :
    ∃ c, read_stack_xml demoFS "demo.xml" = .ok (some c) ∧
      ∀ g ∈ demoRoot.children, ∀ e ∈ g.children, ∀ comp ∈ e.children,
        contents_get c g.tag e.tag comp.tag = comp.attrib.lookup "value" :=
  claim_C7_read_builds_mapping demoFS "demo.xml" demoRoot rfl (by decide)
    (by decide) (by decide) (by decide)

/-- C7 counterexample: reading the demo document stores `"01"` for
`tx`, the `value` attribute of the child element `<tx value="01"/>` —
not the object entry's own `tx="7"` attribute and not any parsed
number, refuting the claim that the values are taken from attributes of
the object entry and parsed as numbers. -/
theorem claim_C7_counterexample :
    read_stack_xml demoFS "demo.xml" = .ok (some demoContents) ∧
    contents_get demoContents "stack001" "obj1" "tx" = some "01" ∧
    demoEntry.attrib.lookup "tx" = some "7" ∧
    contents_get demoContents "stack001" "obj1" "tx" ≠
      demoEntry.attrib.lookup "tx" :=
  ⟨rfl, rfl, rfl, by decide⟩
